import Mathlib

/-!
Verification of the video-recommender repository.

This file gives a shallow embedding, in Lean 4, of the parts of the
repository that the specification's claims are about:

* `src/video_recommender/scrapers.py` — the scraper façade
  (`Crawl4aiVideoScraper.fetch`, `_run_flow`, `_calculate_retry_delay`,
  `_convert_to_dataframe`, and the URL de-duplication step);
* `src/video_recommender_main.py` — bookmark parsing
  (`parse_bookmarks_from_file`), profile construction
  (`build_user_profile`), and ranking (`recommend_videos`).

Modelling conventions:

* Python floats are modelled as `ℚ`; this is exact for the arithmetic the
  claims are about (products, sums, `min`).
* A pandas `DataFrame` is modelled as a `List` of row structures; a cell
  of an object column that may hold a non-string value is modelled by the
  `Cell` type (`str s` / `nan` / `other`, where `other` stands for a
  numeric non-string, non-NaN value).
* Raising an exception is modelled by returning `Except.error`.
* The underlying site pipeline (`_simulate_crawl4ai_flow`, network I/O)
  is modelled as a function `stub : ℕ → AttemptOutcome` from the 0-based
  attempt number to the observed outcome: either a parsed result list or
  a raised exception.  This matches the specification's own phrasing
  ("given a pipeline stub ...").
* Lean's built-in `String.trim` / `String.split` / `String.toLower` are
  defined by well-founded recursion and do not reduce in the kernel, so
  the file defines character-list versions with the same semantics.
-/

namespace VideoRec

/-! ### Character-level string helpers -/

/-- A regex word character (`\w`): letter, digit or underscore. -/
def isWordChar (c : Char) : Bool := c.isAlphanum || c = '_'

/-- Split a character list at every character satisfying `p`; the pieces
between separators are kept, including empty pieces (the semantics of
`str.split` on a separator class). `acc` is the current piece, reversed. -/
def splitCharsAux (p : Char → Bool) : List Char → List Char → List (List Char)
  | [], acc => [acc.reverse]
  | c :: cs, acc =>
    if p c then acc.reverse :: splitCharsAux p cs [] else splitCharsAux p cs (c :: acc)

/-- Lower-case a string character by character (Python `str.lower`). -/
def strToLower (s : String) : String := String.mk (s.data.map Char.toLower)

/-- Strip leading and trailing whitespace (Python `str.strip`). -/
def strTrim (s : String) : String :=
  String.mk (((s.data.dropWhile Char.isWhitespace).reverse.dropWhile Char.isWhitespace).reverse)

/-! ### A generic stable sort

`sSort before l` places `x` before `y` whenever `before x y` holds,
scanning left to right; elements are kept in their original relative
order when `before` does not separate them.  It is used twice: for the
alphabetically sorted TF-IDF vocabulary, and as the extensional model of
`pandas.DataFrame.nlargest(n, col)` with `keep='first'` (stable
descending sort followed by `head(n)`). -/

/-- Insert `x` before the first element `y` of `l` with `before x y`. -/
def sInsert (before : α → α → Bool) (x : α) : List α → List α
  | [] => [x]
  | y :: ys => if before x y then x :: y :: ys else y :: sInsert before x ys

/-- Insertion sort using `sInsert`; stable because `sSort (x :: xs)`
inserts `x` (the earliest element) in front of every element it does not
strictly lose to. -/
def sSort (before : α → α → Bool) : List α → List α
  | [] => []
  | x :: xs => sInsert before x (sSort before xs)

theorem length_sInsert (before : α → α → Bool) (x : α) (l : List α) :
    (sInsert before x l).length = l.length + 1 := by
  induction l with
  | nil => rfl
  | cons y ys ih =>
    simp only [sInsert]
    by_cases h : before x y = true
    · simp [h]
    · simp [h, ih]

theorem length_sSort (before : α → α → Bool) (l : List α) :
    (sSort before l).length = l.length := by
  induction l with
  | nil => rfl
  | cons x xs ih => simp [sSort, length_sInsert, ih]

theorem mem_sInsert (before : α → α → Bool) (x a : α) (l : List α) :
    a ∈ sInsert before x l ↔ a = x ∨ a ∈ l := by
  induction l with
  | nil => simp [sInsert]
  | cons y ys ih =>
    simp only [sInsert]
    by_cases h : before x y = true
    · simp only [if_pos h, List.mem_cons]
    · simp only [if_neg h, List.mem_cons, ih]
      tauto

theorem mem_sSort (before : α → α → Bool) (a : α) (l : List α) :
    a ∈ sSort before l ↔ a ∈ l := by
  induction l with
  | nil => simp [sSort]
  | cons x xs ih => simp [sSort, mem_sInsert, ih, List.mem_cons]

theorem pairwise_sInsert (before : α → α → Bool)
    (htot : ∀ a b, before a b = false → before b a = true)
    (htrans : ∀ a b c, before a b = true → before b c = true → before a c = true)
    (x : α) (l : List α) (hl : l.Pairwise (fun a b => before a b = true)) :
    (sInsert before x l).Pairwise (fun a b => before a b = true) := by
  induction l with
  | nil => simp [sInsert]
  | cons y ys ih =>
    simp only [sInsert]
    rcases List.pairwise_cons.mp hl with ⟨hy, hys⟩
    by_cases h : before x y = true
    · rw [if_pos h]
      refine List.pairwise_cons.mpr ⟨?_, hl⟩
      intro z hz
      rcases List.mem_cons.mp hz with rfl | hz
      · exact h
      · exact htrans x y z h (hy z hz)
    · rw [if_neg h]
      refine List.pairwise_cons.mpr ⟨?_, ih hys⟩
      intro z hz
      rcases (mem_sInsert before x z ys).mp hz with hzx | hz
      · rw [hzx]
        exact htot x y (by simpa using h)
      · exact hy z hz

theorem pairwise_sSort (before : α → α → Bool)
    (htot : ∀ a b, before a b = false → before b a = true)
    (htrans : ∀ a b c, before a b = true → before b c = true → before a c = true)
    (l : List α) :
    (sSort before l).Pairwise (fun a b => before a b = true) := by
  induction l with
  | nil => simp [sSort]
  | cons x xs ih => exact pairwise_sInsert before htot htrans x (sSort before xs) ih

/-- Stability of the keyed descending sort: every element the insertion of
`x` passes over has a strictly larger key, so filtering on any fixed key
value commutes with the insertion. -/
theorem filter_sInsert_key (key : α → ℚ) (q : ℚ) (x : α) (l : List α) :
    (sInsert (fun a b => decide (key b ≤ key a)) x l).filter (fun a => decide (key a = q)) =
      if key x = q then x :: l.filter (fun a => decide (key a = q))
      else l.filter (fun a => decide (key a = q)) := by
  induction l with
  | nil =>
    by_cases hx : key x = q <;> simp [sInsert, hx]
  | cons y ys ih =>
    simp only [sInsert]
    by_cases h : decide (key y ≤ key x) = true
    · rw [if_pos h]
      by_cases hx : key x = q <;> simp [List.filter_cons, hx]
    · rw [if_neg h]
      have hlt : key x < key y := lt_of_not_le (by simpa using h)
      by_cases hx : key x = q
      · have hy : ¬ (key y = q) := by
          intro hyq
          rw [hx] at hlt
          rw [hyq] at hlt
          exact lt_irrefl q hlt
        simp [List.filter_cons, hx, hy, ih]
      · by_cases hy : key y = q <;> simp [List.filter_cons, hx, hy, ih]

/-- Stability of the keyed descending sort: elements with any fixed key
value appear in the sorted list exactly in their original order. -/
theorem filter_sSort_key (key : α → ℚ) (q : ℚ) (l : List α) :
    (sSort (fun a b => decide (key b ≤ key a)) l).filter (fun a => decide (key a = q)) =
      l.filter (fun a => decide (key a = q)) := by
  induction l with
  | nil => rfl
  | cons x xs ih =>
    simp only [sSort]
    rw [filter_sInsert_key key q x (sSort (fun a b => decide (key b ≤ key a)) xs), ih]
    by_cases hx : key x = q <;> simp [List.filter_cons, hx]

/-! ### Scraper façade (`src/video_recommender/scrapers.py`) -/

/-- The settings dictionary consumed by `Crawl4aiVideoScraper._run_flow`
(`self.settings.get(...)` calls at `scrapers.py:164-173`); floats are
modelled as `ℚ`. -/
structure ScraperSettings where
  user_agent : String
  retry_times : ℕ
  fallback_enabled : Bool
  enable_fallback_user_agents : Bool
  fallback_user_agents : List String
  backoff_strategy : String
  retry_delay_multiplier : ℚ
  max_retry_delay : ℚ
  download_delay : ℚ

/-- `Crawl4aiVideoScraper._calculate_retry_delay` (`scrapers.py:216-236`):
exponential strategy gives `base_delay * multiplier ** attempt`, any other
strategy string takes the linear branch
`base_delay + base_delay * multiplier * attempt`; the result is
`min(delay, max_delay)`. -/
def calculateRetryDelay (attempt : ℕ) (base_delay : ℚ) (strategy : String)
    (multiplier max_delay : ℚ) : ℚ :=
  min
    (if strategy = "exponential" then base_delay * multiplier ^ attempt
     else base_delay + base_delay * multiplier * (attempt : ℚ))
    max_delay

/-- The delay `_run_flow` passes to `asyncio.sleep` for a failed attempt
(`scrapers.py:203-204`). -/
def flowDelay (cfg : ScraperSettings) (attempt : ℕ) : ℚ :=
  calculateRetryDelay attempt cfg.download_delay cfg.backoff_strategy
    cfg.retry_delay_multiplier cfg.max_retry_delay

/-- One entry of the `videos` list produced by the site pipeline; the
dictionary keys read by `_convert_to_dataframe` (`scrapers.py:300-306`)
are `title`, `url` and `description`, each possibly missing. -/
structure RawVideo where
  title : Option String
  url : Option String
  description : Option String
deriving DecidableEq

/-- What one call of the underlying pipeline
(`await self._simulate_crawl4ai_flow(flow_def)`) is observed to do:
return a results dictionary whose `videos` value is `videos`, or raise an
exception (identified by a numeric tag). -/
inductive AttemptOutcome
  | ok (videos : List RawVideo)
  | exc (tag : ℕ)
deriving DecidableEq

/-- The error `_run_flow` raises when all attempts are exhausted
(`scrapers.py:211-214`): the last stored exception, or the generic
`Exception("All retry attempts failed with no results")`. -/
inductive FlowError
  | exc (tag : ℕ)
  | allFailed
deriving DecidableEq

deriving instance DecidableEq for Except

/-- Observable result of one `_run_flow` call: the returned value or the
raised error, the number of pipeline attempts actually performed, and the
list of backoff delays passed to `asyncio.sleep`, in order. -/
structure FlowResult where
  result : Except FlowError (List RawVideo)
  attemptsMade : ℕ
  sleeps : List ℚ
deriving DecidableEq

/-- The body of `_run_flow`'s retry loop (`scrapers.py:175-214`),
unrolled over the remaining number of iterations.  `attempt` is the
0-based loop index, `lastExc` models the `last_exception` variable.
Per iteration (exactly as in the source):
* the pipeline returns a non-empty `videos` list → return it;
* the pipeline returns an empty list → log and continue — no sleep and
  `last_exception` unchanged, because only the `except` branch sleeps;
* the pipeline raises → store the exception and, when
  `attempt < retry_times - 1`, sleep for the computed backoff delay.
After the loop, raise `last_exception` if set, else the generic error. -/
def runFlowAux (stub : ℕ → AttemptOutcome) (cfg : ScraperSettings) :
    ℕ → ℕ → Option ℕ → FlowResult
  | 0, _, lastExc =>
    { result := .error (match lastExc with | some t => .exc t | none => .allFailed)
      attemptsMade := 0
      sleeps := [] }
  | remaining + 1, attempt, lastExc =>
    match stub attempt with
    | .ok videos =>
      if videos.isEmpty then
        let r := runFlowAux stub cfg remaining (attempt + 1) lastExc
        { r with attemptsMade := r.attemptsMade + 1 }
      else
        { result := .ok videos, attemptsMade := 1, sleeps := [] }
    | .exc t =>
      let r := runFlowAux stub cfg remaining (attempt + 1) (some t)
      if attempt < cfg.retry_times - 1 then
        { result := r.result
          attemptsMade := r.attemptsMade + 1
          sleeps := flowDelay cfg attempt :: r.sleeps }
      else
        { r with attemptsMade := r.attemptsMade + 1 }

/-- `Crawl4aiVideoScraper._run_flow` (`scrapers.py:151-214`):
`for attempt in range(retry_times)` with the loop body above. -/
def runFlow (stub : ℕ → AttemptOutcome) (cfg : ScraperSettings) : FlowResult :=
  runFlowAux stub cfg cfg.retry_times 0 none

/-- One row of the standardized result DataFrame. -/
structure Record where
  title : String
  url : String
  source : String
  description : String
deriving DecidableEq

/-- `Crawl4aiVideoScraper._convert_to_dataframe` (`scrapers.py:282-308`):
each video dictionary becomes a row, with defaults `'No Title'`, `''`,
`''` for missing keys and `source` set to the site name.  (The early
return for an empty `videos` list produces the same empty frame as
mapping over `[]`.) -/
def convertToDataframe (videos : List RawVideo) (source : String) : List Record :=
  videos.map (fun v =>
    { title := v.title.getD "No Title"
      url := v.url.getD ""
      source := source
      description := v.description.getD "" })

/-- `df.drop_duplicates(subset=['url'], keep='first')`
(`scrapers.py:144`): keep a row iff its `url` was not seen earlier;
`seen` accumulates the urls already kept. -/
def dedupByUrlAux (seen : List String) : List Record → List Record
  | [] => []
  | r :: rs =>
    if r.url ∈ seen then dedupByUrlAux seen rs
    else r :: dedupByUrlAux (r.url :: seen) rs

/-- URL de-duplication keeping the first occurrence. -/
def dedupByUrl (rs : List Record) : List Record := dedupByUrlAux [] rs

/-- The keys of `self._site_pipelines` (`scrapers.py:105-111`), in
insertion order. -/
def supportedSites : List String := ["eporner", "hqporner", "porntrex", "xnxx", "motherless"]

/-- Observable result of one `fetch` call: the returned DataFrame or the
raised error (the `ValueError` message for an unsupported site), the
number of pipeline attempts, and the backoff sleeps performed. -/
structure FetchResult where
  result : Except String (List Record)
  attemptsMade : ℕ
  sleeps : List ℚ

/-- `Crawl4aiVideoScraper.fetch` (`scrapers.py:113-149`):
* an unsupported `site.lower()` raises `ValueError` listing the supported
  sites, before any pipeline attempt;
* otherwise `_run_flow` runs; on success the results are converted,
  truncated with `df.head(max_results)` when longer than `max_results`,
  and de-duplicated by url;
* every exception escaping `_run_flow` is caught (`scrapers.py:147-149`)
  and an empty DataFrame is returned. -/
def fetch (stub : ℕ → AttemptOutcome) (cfg : ScraperSettings) (site : String)
    (max_results : ℕ) : FetchResult :=
  if supportedSites.contains (strToLower site) then
    let fr := runFlow stub cfg
    match fr.result with
    | .ok videos =>
      { result := .ok (dedupByUrl ((convertToDataframe videos (strToLower site)).take max_results))
        attemptsMade := fr.attemptsMade
        sleeps := fr.sleeps }
    | .error _ =>
      { result := .ok [], attemptsMade := fr.attemptsMade, sleeps := fr.sleeps }
  else
    { result := .error ("Site '" ++ site ++ "' not supported. Supported sites: " ++
        String.intercalate ", " supportedSites)
      attemptsMade := 0
      sleeps := [] }

/-- The configuration `CRAWL4AI_DEFAULTS` of `src/crawl4ai_settings.py`
(floats as `ℚ`; the fields `_run_flow` reads). -/
def defaultSettings : ScraperSettings :=
  { user_agent := "Mozilla/5.0 (compatible; VideoRecommender/1.0)"
    retry_times := 3
    fallback_enabled := true
    enable_fallback_user_agents := true
    fallback_user_agents :=
      ["Mozilla/5.0 (Windows NT 10.0; Win64; x64) AppleWebKit/537.36 (KHTML, like Gecko) Chrome/91.0.4472.124 Safari/537.36",
       "Mozilla/5.0 (Macintosh; Intel Mac OS X 10_15_7) AppleWebKit/537.36 (KHTML, like Gecko) Chrome/91.0.4472.124 Safari/537.36",
       "Mozilla/5.0 (X11; Linux x86_64) AppleWebKit/537.36 (KHTML, like Gecko) Chrome/91.0.4472.124 Safari/537.36"]
    backoff_strategy := "exponential"
    retry_delay_multiplier := 2
    max_retry_delay := 10
    download_delay := 1 }

/-- An attempt "fails" in the sense of the retry loop: the pipeline call
raises, or it returns zero records. -/
def attemptFails : AttemptOutcome → Prop
  | .ok videos => videos = []
  | .exc _ => True

/-- If every attempt in the remaining window fails, the loop performs
every remaining iteration and ends by raising. -/
theorem runFlowAux_allFail (stub : ℕ → AttemptOutcome) (cfg : ScraperSettings) :
    ∀ remaining attempt lastExc,
      (∀ a, attempt ≤ a → a < attempt + remaining → attemptFails (stub a)) →
      (runFlowAux stub cfg remaining attempt lastExc).attemptsMade = remaining
      ∧ ∃ e, (runFlowAux stub cfg remaining attempt lastExc).result = .error e := by
  intro remaining
  induction remaining with
  | zero =>
    intro attempt lastExc _
    refine ⟨rfl, ?_⟩
    cases lastExc <;> exact ⟨_, rfl⟩
  | succ n ih =>
    intro attempt lastExc h
    have hcur : attemptFails (stub attempt) := h attempt le_rfl (by omega)
    have hrest : ∀ a, attempt + 1 ≤ a → a < (attempt + 1) + n → attemptFails (stub a) := by
      intro a ha hb
      exact h a (by omega) (by omega)
    cases hstub : stub attempt with
    | ok videos =>
      rw [hstub] at hcur
      have hempty : videos = [] := hcur
      subst hempty
      rcases ih (attempt + 1) lastExc hrest with ⟨h1, e, h2⟩
      simp only [runFlowAux, hstub, List.isEmpty_nil, if_pos]
      exact ⟨by simpa using h1, e, by simpa using h2⟩
    | exc t =>
      rcases ih (attempt + 1) (some t) hrest with ⟨h1, e, h2⟩
      simp only [runFlowAux, hstub]
      by_cases hlt : attempt < cfg.retry_times - 1
      · rw [if_pos hlt]
        exact ⟨by simpa using h1, e, by simpa using h2⟩
      · rw [if_neg hlt]
        exact ⟨by simpa using h1, e, by simpa using h2⟩

/-- If every attempt in the remaining window returns zero records
without raising, `last_exception` is never overwritten, so the loop ends
raising the stored exception if any, else the generic error. -/
theorem runFlowAux_allEmpty (stub : ℕ → AttemptOutcome) (cfg : ScraperSettings) :
    ∀ remaining attempt lastExc,
      (∀ a, attempt ≤ a → a < attempt + remaining → stub a = .ok []) →
      (runFlowAux stub cfg remaining attempt lastExc).result =
        .error (match lastExc with | some t => .exc t | none => .allFailed) := by
  intro remaining
  induction remaining with
  | zero => intro attempt lastExc _; rfl
  | succ n ih =>
    intro attempt lastExc h
    have hcur : stub attempt = .ok [] := h attempt le_rfl (by omega)
    have hrest : ∀ a, attempt + 1 ≤ a → a < (attempt + 1) + n → stub a = .ok [] := by
      intro a ha hb
      exact h a (by omega) (by omega)
    simp only [runFlowAux, hcur, List.isEmpty_nil, if_pos]
    exact ih (attempt + 1) lastExc hrest

/-- If every attempt before `j` fails, attempt `j` raises tag `t`, and
every later attempt in the window returns zero records, the loop
re-raises exactly the exception of attempt `j` — the last one observed. -/
theorem runFlowAux_lastError (stub : ℕ → AttemptOutcome) (cfg : ScraperSettings) (j t : ℕ)
    (ht : stub j = .exc t) :
    ∀ remaining attempt lastExc,
      attempt ≤ j → j < attempt + remaining →
      (∀ a, attempt ≤ a → a < j → attemptFails (stub a)) →
      (∀ a, j < a → a < attempt + remaining → stub a = .ok []) →
      (runFlowAux stub cfg remaining attempt lastExc).result = .error (.exc t) := by
  intro remaining
  induction remaining with
  | zero => intro attempt lastExc h1 h2 _ _; omega
  | succ n ih =>
    intro attempt lastExc h1 h2 hbefore hafter
    by_cases hj : attempt = j
    · subst hj
      simp only [runFlowAux, ht]
      have hrest : ∀ a, attempt + 1 ≤ a → a < (attempt + 1) + n → stub a = .ok [] := by
        intro a ha hb
        exact hafter a (by omega) (by omega)
      have hall := runFlowAux_allEmpty stub cfg n (attempt + 1) (some t) hrest
      by_cases hlt : attempt < cfg.retry_times - 1
      · rw [if_pos hlt]
        simpa using hall
      · rw [if_neg hlt]
        simpa using hall
    · have hltj : attempt < j := by omega
      have hbefore' : ∀ a, attempt + 1 ≤ a → a < j → attemptFails (stub a) := by
        intro a ha hb
        exact hbefore a (by omega) hb
      have hafter' : ∀ a, j < a → a < (attempt + 1) + n → stub a = .ok [] := by
        intro a ha hb
        exact hafter a ha (by omega)
      cases hstub : stub attempt with
      | ok videos =>
        have hfails := hbefore attempt le_rfl hltj
        rw [hstub] at hfails
        have hempty : videos = [] := hfails
        subst hempty
        have hih := ih (attempt + 1) lastExc (by omega) (by omega) hbefore' hafter'
        simp only [runFlowAux, hstub, List.isEmpty_nil, if_pos]
        simpa using hih
      | exc t' =>
        have hih := ih (attempt + 1) (some t') (by omega) (by omega) hbefore' hafter'
        simp only [runFlowAux, hstub]
        by_cases hcond : attempt < cfg.retry_times - 1
        · rw [if_pos hcond]
          simpa using hih
        · rw [if_neg hcond]
          simpa using hih

/-- If every attempt before `s` raises and attempt `s` (inside the loop
window and inside `range(retry_times)`) returns a non-empty list, the
loop returns that list, performs attempts `attempt..s`, and sleeps once
after each raising attempt, with the delay computed for that attempt. -/
theorem runFlowAux_success (stub : ℕ → AttemptOutcome) (cfg : ScraperSettings)
    (s : ℕ) (vids : List RawVideo) (hs : stub s = .ok vids) (hvids : vids ≠ [])
    (hsrt : s < cfg.retry_times) :
    ∀ remaining attempt lastExc,
      attempt ≤ s → s < attempt + remaining →
      (∀ a, attempt ≤ a → a < s → ∃ t, stub a = .exc t) →
      (runFlowAux stub cfg remaining attempt lastExc).result = .ok vids
      ∧ (runFlowAux stub cfg remaining attempt lastExc).attemptsMade = s - attempt + 1
      ∧ (runFlowAux stub cfg remaining attempt lastExc).sleeps =
          (List.range' attempt (s - attempt)).map (flowDelay cfg) := by
  intro remaining
  induction remaining with
  | zero => intro attempt lastExc h1 h2 _; omega
  | succ n ih =>
    intro attempt lastExc h1 h2 hbefore
    by_cases hj : attempt = s
    · subst hj
      have hne : vids.isEmpty = false := by
        cases vids with
        | nil => exact absurd rfl hvids
        | cons v vs => rfl
      simp only [runFlowAux, hs, hne, Bool.false_eq_true, if_neg, not_false_iff]
      refine ⟨by trivial, by omega, by simp⟩
    · have hlt : attempt < s := by omega
      rcases hbefore attempt le_rfl hlt with ⟨t, hstub⟩
      have hbefore' : ∀ a, attempt + 1 ≤ a → a < s → ∃ u, stub a = .exc u := by
        intro a ha hb
        exact hbefore a (by omega) hb
      have hih := ih (attempt + 1) (some t) (by omega) (by omega) hbefore'
      have hcond : attempt < cfg.retry_times - 1 := by omega
      have hrange : List.range' attempt (s - attempt) =
          attempt :: List.range' (attempt + 1) (s - (attempt + 1)) := by
        have heq : s - attempt = (s - (attempt + 1)) + 1 := by omega
        rw [heq, List.range'_succ]
      simp only [runFlowAux, hstub, if_pos hcond]
      refine ⟨by simpa using hih.1, ?_, ?_⟩
      · have ha := hih.2.1
        simp only [ha]
        omega
      · have hsl := hih.2.2
        simp only [hrange, List.map_cons, hsl]

/-- Under a non-negative base delay and a multiplier of at least one,
the computed backoff delay is monotone in the attempt number — for the
exponential branch and for the linear branch alike, and the `min` cap
preserves monotonicity. -/
theorem flowDelay_mono (cfg : ScraperSettings)
    (hb : 0 ≤ cfg.download_delay) (hm : 1 ≤ cfg.retry_delay_multiplier)
    (a b : ℕ) (hab : a ≤ b) : flowDelay cfg a ≤ flowDelay cfg b := by
  unfold flowDelay calculateRetryDelay
  refine min_le_min ?_ le_rfl
  have hm0 : (0 : ℚ) ≤ cfg.retry_delay_multiplier := le_trans zero_le_one hm
  by_cases hstrat : cfg.backoff_strategy = "exponential"
  · rw [if_pos hstrat, if_pos hstrat]
    exact mul_le_mul_of_nonneg_left (pow_le_pow_right₀ hm hab) hb
  · rw [if_neg hstrat, if_neg hstrat]
    refine add_le_add_left ?_ _
    refine mul_le_mul_of_nonneg_left ?_ (mul_nonneg hb hm0)
    exact_mod_cast hab

/-- The sleeps of a run whose delays are `flowDelay cfg` over an initial
range are non-decreasing. -/
theorem flowDelay_range_sorted (cfg : ScraperSettings)
    (hb : 0 ≤ cfg.download_delay) (hm : 1 ≤ cfg.retry_delay_multiplier) (n : ℕ) :
    ((List.range n).map (flowDelay cfg)).Pairwise (· ≤ ·) := by
  refine List.Pairwise.map (flowDelay cfg) ?_ (List.pairwise_lt_range n)
  intro a b hab
  exact flowDelay_mono cfg hb hm a b (le_of_lt hab)

/-- `drop_duplicates` returns a subsequence of its input. -/
theorem dedupByUrlAux_sublist (l : List Record) :
    ∀ seen, List.Sublist (dedupByUrlAux seen l) l := by
  induction l with
  | nil => intro seen; simp [dedupByUrlAux]
  | cons r rs ih =>
    intro seen
    simp only [dedupByUrlAux]
    by_cases h : r.url ∈ seen
    · rw [if_pos h]
      exact List.Sublist.cons r (ih seen)
    · rw [if_neg h]
      exact List.Sublist.cons₂ r (ih (r.url :: seen))

/-- After `drop_duplicates(subset=['url'], keep='first')` the urls of the
kept rows are pairwise distinct, and none of them is in `seen`. -/
theorem dedupByUrlAux_nodup (l : List Record) :
    ∀ seen, ((dedupByUrlAux seen l).map Record.url).Nodup
      ∧ ∀ r ∈ dedupByUrlAux seen l, r.url ∉ seen := by
  induction l with
  | nil => intro seen; simp [dedupByUrlAux]
  | cons r rs ih =>
    intro seen
    simp only [dedupByUrlAux]
    by_cases h : r.url ∈ seen
    · rw [if_pos h]
      exact (ih seen)
    · rw [if_neg h]
      rcases ih (r.url :: seen) with ⟨h1, h2⟩
      constructor
      · simp only [List.map_cons, List.nodup_cons]
        refine ⟨?_, h1⟩
        intro hmem
        rcases List.mem_map.mp hmem with ⟨x, hx, hxu⟩
        exact (h2 x hx) (by rw [hxu]; exact List.mem_cons_self _ _)
      · intro x hx
        rcases List.mem_cons.mp hx with rfl | hx
        · exact h
        · intro hxs
          exact (h2 x hx) (List.mem_cons_of_mem _ hxs)

theorem dedupByUrl_sublist (l : List Record) : List.Sublist (dedupByUrl l) l :=
  dedupByUrlAux_sublist l []

theorem dedupByUrl_length (l : List Record) : (dedupByUrl l).length ≤ l.length :=
  (dedupByUrl_sublist l).length_le

theorem dedupByUrl_nodup (l : List Record) : ((dedupByUrl l).map Record.url).Nodup :=
  (dedupByUrlAux_nodup l []).1

/-- **C4.** For every 0-based attempt number, base delay, multiplier and
cap, the computed retry delay equals `base_delay * multiplier^attempt`
under the exponential strategy and
`base_delay + base_delay * multiplier * attempt` under the linear
strategy, in both cases capped at `max_retry_delay`. -/
theorem C4_retry_delay_formula (attempt : ℕ) (base multiplier maxDelay : ℚ) :
    calculateRetryDelay attempt base "exponential" multiplier maxDelay
      = min (base * multiplier ^ attempt) maxDelay
    ∧ calculateRetryDelay attempt base "linear" multiplier maxDelay
      = min (base + base * multiplier * (attempt : ℚ)) maxDelay := by
  constructor
  · unfold calculateRetryDelay
    rw [if_pos rfl]
  · unfold calculateRetryDelay
    rw [if_neg (by decide)]

/-- **C1 (amended).** For every site pipeline stub that fails on all
`retry_times` attempts, `_run_flow` performs exactly `retry_times`
attempts and raises: the exception of the last raising attempt if any
attempt raised, or the generic "all attempts failed" error if every
attempt returned zero records without raising.  `fetch`, however,
catches that error and returns an empty DataFrame to its caller instead
of re-raising it. -/
theorem C1_exhausted_retries (stub : ℕ → AttemptOutcome) (cfg : ScraperSettings)
    (site : String) (m : ℕ)
    (hsite : supportedSites.contains (strToLower site) = true)
    (hfail : ∀ a, a < cfg.retry_times → attemptFails (stub a)) :
    (runFlow stub cfg).attemptsMade = cfg.retry_times
    ∧ (∃ e, (runFlow stub cfg).result = .error e)
    ∧ (∀ j u, j < cfg.retry_times → stub j = .exc u →
        (∀ a, j < a → a < cfg.retry_times → stub a = .ok []) →
        (runFlow stub cfg).result = .error (.exc u))
    ∧ ((∀ a, a < cfg.retry_times → stub a = .ok []) →
        (runFlow stub cfg).result = .error .allFailed)
    ∧ (fetch stub cfg site m).result = .ok [] := by
  have hwin : ∀ a, 0 ≤ a → a < 0 + cfg.retry_times → attemptFails (stub a) := by
    intro a _ hb
    exact hfail a (by omega)
  have hall := runFlowAux_allFail stub cfg cfg.retry_times 0 none hwin
  rcases hall with ⟨hatt, e, herr⟩
  refine ⟨hatt, ⟨e, herr⟩, ?_, ?_, ?_⟩
  · intro j u hj hju hafter
    exact runFlowAux_lastError stub cfg j u hju cfg.retry_times 0 none (by omega) (by omega)
      (fun a ha hb => hfail a (by omega)) (fun a ha hb => hafter a ha (by omega))
  · intro hempty
    have := runFlowAux_allEmpty stub cfg cfg.retry_times 0 none
      (fun a ha hb => hempty a (by omega))
    simpa using this
  · unfold fetch
    rw [if_pos hsite]
    simp only [runFlow]
    simp [herr]

/-- **C1 (counterexample to the claim as stated).** With the default
settings and a pipeline stub that raises on every attempt, `_run_flow`
does raise (the last error, tag 2 of attempt index 2) — but `fetch`
catches it and returns an empty DataFrame: no error is raised to
`fetch`'s caller. -/
theorem C1_counterexample :
    (runFlow (fun a => .exc a) defaultSettings).result = .error (.exc 2)
    ∧ (runFlow (fun a => .exc a) defaultSettings).attemptsMade = 3
    ∧ (fetch (fun a => .exc a) defaultSettings "eporner" 30).result = .ok [] := by
  refine ⟨by decide, by decide, by decide⟩

/-- **C1 (witness).** The amended claim instantiated at a concrete
always-raising stub under the default settings. -/
theorem C1_witness :
    (runFlow (fun a => .exc (a + 5)) defaultSettings).attemptsMade = 3
    ∧ (runFlow (fun a => .exc (a + 5)) defaultSettings).result = .error (.exc 7)
    ∧ (fetch (fun a => .exc (a + 5)) defaultSettings "eporner" 10).result = .ok [] := by
  have h := C1_exhausted_retries (fun a => .exc (a + 5)) defaultSettings "eporner" 10
    (by decide) (fun a _ => by trivial)
  refine ⟨by simpa using h.1, ?_, h.2.2.2.2⟩
  have hlast := h.2.2.1 2 7 (by decide) (by decide)
    (fun a ha hb => by have hb3 : a < 3 := hb; omega)
  exact hlast

/-- **C9.** For every site identifier whose lower-casing is not in the
supported set, `fetch` raises a `ValueError` whose message lists the
supported site identifiers, performing zero pipeline attempts and zero
sleeps — before any network activity. -/
theorem C9_unsupported_site_fails_fast (stub : ℕ → AttemptOutcome) (cfg : ScraperSettings)
    (site : String) (m : ℕ)
    (hsite : supportedSites.contains (strToLower site) = false) :
    (fetch stub cfg site m).result =
      .error ("Site '" ++ site ++ "' not supported. Supported sites: " ++
        String.intercalate ", " supportedSites)
    ∧ String.intercalate ", " supportedSites = "eporner, hqporner, porntrex, xnxx, motherless"
    ∧ (fetch stub cfg site m).attemptsMade = 0
    ∧ (fetch stub cfg site m).sleeps = [] := by
  have hneg : ¬ (supportedSites.contains (strToLower site) = true) := by
    rw [hsite]
    decide
  unfold fetch
  rw [if_neg hneg]
  exact ⟨rfl, rfl, rfl, rfl⟩

/-- **C9 (witness).** The claim instantiated at the unsupported site
`"YouTube"`. -/
theorem C9_witness :
    (fetch (fun _ => .ok []) defaultSettings "YouTube" 30).result =
      .error ("Site '" ++ "YouTube" ++ "' not supported. Supported sites: " ++
        String.intercalate ", " supportedSites)
    ∧ (fetch (fun _ => .ok []) defaultSettings "YouTube" 30).attemptsMade = 0
    ∧ (fetch (fun _ => .ok []) defaultSettings "YouTube" 30).sleeps = [] := by
  have h := C9_unsupported_site_fails_fast (fun _ => .ok []) defaultSettings "YouTube" 30
    (by decide)
  exact ⟨h.1, h.2.2.1, h.2.2.2⟩

/-- **C5 (amended).** For every pipeline stub that raises on the first
`k-1` attempts and succeeds on attempt `k` with `k ≤ retry_times`,
`fetch` returns the successful (converted, truncated, de-duplicated)
result after exactly `k` attempts, and the loop performs exactly `k-1`
backoff sleeps whose computed delays are those of attempts `0..k-2` and
are non-decreasing whenever `download_delay ≥ 0` and the multiplier is at
least 1 (in particular for a multiplier > 1), for the exponential and the
linear strategy alike.  (When an early attempt fails by returning zero
records instead of raising, no sleep is performed for it — see the
counterexample.) -/
theorem C5_fail_then_succeed (stub : ℕ → AttemptOutcome) (cfg : ScraperSettings)
    (site : String) (m k : ℕ) (vids : List RawVideo)
    (hsite : supportedSites.contains (strToLower site) = true)
    (hk1 : 1 ≤ k) (hk : k ≤ cfg.retry_times)
    (hfail : ∀ a, a < k - 1 → ∃ t, stub a = .exc t)
    (hsucc : stub (k - 1) = .ok vids) (hvids : vids ≠ []) :
    (runFlow stub cfg).result = .ok vids
    ∧ (fetch stub cfg site m).result =
        .ok (dedupByUrl ((convertToDataframe vids (strToLower site)).take m))
    ∧ (runFlow stub cfg).attemptsMade = k
    ∧ (runFlow stub cfg).sleeps = (List.range (k - 1)).map (flowDelay cfg)
    ∧ (runFlow stub cfg).sleeps.length = k - 1
    ∧ (0 ≤ cfg.download_delay → 1 ≤ cfg.retry_delay_multiplier →
        (runFlow stub cfg).sleeps.Pairwise (· ≤ ·)) := by
  have hsrt : k - 1 < cfg.retry_times := by omega
  have h := runFlowAux_success stub cfg (k - 1) vids hsucc hvids hsrt
    cfg.retry_times 0 none (by omega) (by omega)
    (fun a _ hb => hfail a hb)
  rcases h with ⟨hres, hatt, hsl⟩
  have hres' : (runFlow stub cfg).result = .ok vids := hres
  have hatt' : (runFlow stub cfg).attemptsMade = k := by
    rw [runFlow, hatt]
    omega
  have hsl' : (runFlow stub cfg).sleeps = (List.range (k - 1)).map (flowDelay cfg) := by
    rw [runFlow, hsl, List.range_eq_range']
    simp
  refine ⟨hres', ?_, hatt', hsl', ?_, ?_⟩
  · unfold fetch
    rw [if_pos hsite]
    simp [hres']
  · rw [hsl']
    simp
  · intro hb hm
    rw [hsl']
    exact flowDelay_range_sorted cfg hb hm (k - 1)

/-- **C5 (counterexample to the claim as stated).** A stub that fails its
first `k-1 = 1` attempt by returning zero records (without raising) and
succeeds on attempt `k = 2 ≤ retry_times = 3`: `fetch` returns the
successful result, but zero backoff sleeps were performed, not `k-1 = 1`
— the loop only sleeps in its `except` branch. -/
theorem C5_counterexample :
    (runFlow (fun a => if a = 0 then .ok [] else .ok [⟨some "t", some "u", none⟩])
        defaultSettings).result = .ok [⟨some "t", some "u", none⟩]
    ∧ (runFlow (fun a => if a = 0 then .ok [] else .ok [⟨some "t", some "u", none⟩])
        defaultSettings).sleeps = []
    ∧ (runFlow (fun a => if a = 0 then .ok [] else .ok [⟨some "t", some "u", none⟩])
        defaultSettings).attemptsMade = 2 := by
  refine ⟨by decide, by decide, by decide⟩

/-- **C5 (witness).** The amended claim instantiated at a stub raising on
attempts 0 and 1 and succeeding on attempt `k = 3` under the default
settings (exponential strategy, multiplier 2). -/
theorem C5_witness :
    (runFlow (fun a => if a < 2 then .exc a else .ok [⟨some "t", some "u", none⟩])
        defaultSettings).result = .ok [⟨some "t", some "u", none⟩]
    ∧ (fetch (fun a => if a < 2 then .exc a else .ok [⟨some "t", some "u", none⟩])
        defaultSettings "eporner" 30).result = .ok [⟨"t", "u", "eporner", ""⟩]
    ∧ (runFlow (fun a => if a < 2 then .exc a else .ok [⟨some "t", some "u", none⟩])
        defaultSettings).sleeps.length = 2
    ∧ (runFlow (fun a => if a < 2 then .exc a else .ok [⟨some "t", some "u", none⟩])
        defaultSettings).sleeps.Pairwise (· ≤ ·) := by
  have h := C5_fail_then_succeed
    (fun a => if a < 2 then .exc a else .ok [⟨some "t", some "u", none⟩])
    defaultSettings "eporner" 30 3 [⟨some "t", some "u", none⟩]
    (by decide) (by omega) (by decide)
    (fun a ha => ⟨a, by simp [show a < 2 from ha]⟩)
    (by decide) (by decide)
  refine ⟨h.1, ?_, by simpa using h.2.2.2.2.1,
    h.2.2.2.2.2 (by norm_num [defaultSettings]) (by norm_num [defaultSettings])⟩
  have h2 := h.2.1
  simpa using h2

/-- **C2.** On a successful fetch the pipeline's records are converted,
then truncated to the first `max_results` rows, then de-duplicated by url
keeping the first occurrence; hence at most `max_results` rows come back,
their urls are pairwise distinct, they form a subsequence of the
truncated list — and the result may have fewer than `max_results` rows
when duplicate urls occur inside the truncation window (final
conjunct: a concrete run returning 2 records with equal urls under
`max_results = 2` yields 1 row). -/
theorem C2_truncate_then_dedup (stub : ℕ → AttemptOutcome) (cfg : ScraperSettings)
    (site : String) (m : ℕ) (vids : List RawVideo)
    (hsite : supportedSites.contains (strToLower site) = true)
    (hok : (runFlow stub cfg).result = .ok vids) :
    (fetch stub cfg site m).result =
      .ok (dedupByUrl ((convertToDataframe vids (strToLower site)).take m))
    ∧ (∀ r, (fetch stub cfg site m).result = .ok r →
        r.length ≤ m
        ∧ List.Sublist r ((convertToDataframe vids (strToLower site)).take m)
        ∧ (r.map Record.url).Nodup)
    ∧ (∃ r2, (fetch (fun _ => .ok [⟨some "t1", some "u", none⟩, ⟨some "t2", some "u", none⟩])
          defaultSettings "eporner" 2).result = .ok r2 ∧ r2.length = 1 ∧ 1 < 2) := by
  have hfetch : (fetch stub cfg site m).result =
      .ok (dedupByUrl ((convertToDataframe vids (strToLower site)).take m)) := by
    unfold fetch
    rw [if_pos hsite]
    simp [hok]
  refine ⟨hfetch, ?_, ?_⟩
  · intro r hr
    rw [hfetch] at hr
    have hreq : r = dedupByUrl ((convertToDataframe vids (strToLower site)).take m) := by
      exact (Except.ok.injEq _ _).mp hr.symm
    subst hreq
    refine ⟨?_, dedupByUrl_sublist _, dedupByUrl_nodup _⟩
    calc (dedupByUrl ((convertToDataframe vids (strToLower site)).take m)).length
        ≤ ((convertToDataframe vids (strToLower site)).take m).length :=
          dedupByUrl_length _
      _ ≤ m := by
          rw [List.length_take]
          exact min_le_left _ _
  · exact ⟨[⟨"t1", "u", "eporner", ""⟩], by decide, by decide, by omega⟩

/-- **C2 (witness).** The claim instantiated at a stub returning three
records (two sharing a url) under `max_results = 2`: the window keeps the
first two rows, dedup then drops the second, leaving one row. -/
theorem C2_witness :
    (fetch (fun _ => .ok [⟨some "a", some "u", none⟩, ⟨some "b", some "u", none⟩,
        ⟨some "c", some "w", none⟩]) defaultSettings "eporner" 2).result =
      .ok (dedupByUrl ((convertToDataframe
        [⟨some "a", some "u", none⟩, ⟨some "b", some "u", none⟩, ⟨some "c", some "w", none⟩]
        (strToLower "eporner")).take 2))
    ∧ (fetch (fun _ => .ok [⟨some "a", some "u", none⟩, ⟨some "b", some "u", none⟩,
        ⟨some "c", some "w", none⟩]) defaultSettings "eporner" 2).result =
      .ok [⟨"a", "u", "eporner", ""⟩] := by
  have h := C2_truncate_then_dedup
    (fun _ => .ok [⟨some "a", some "u", none⟩, ⟨some "b", some "u", none⟩,
      ⟨some "c", some "w", none⟩])
    defaultSettings "eporner" 2
    [⟨some "a", some "u", none⟩, ⟨some "b", some "u", none⟩, ⟨some "c", some "w", none⟩]
    (by decide) (by decide)
  exact ⟨h.1, by decide⟩

/-! ### Ranker and profile builder (`src/video_recommender_main.py`) -/

/-- A cell of a pandas object column, as `recommend_videos` may receive
it: a string, the float `NaN` (pandas' missing value, which elementwise
string addition propagates without raising), or a numeric non-string,
non-NaN value (on which elementwise addition with a string raises
`TypeError`). -/
inductive Cell
  | str (s : String)
  | nan
  | other
deriving DecidableEq

/-- One row of the candidates DataFrame passed to `recommend_videos`:
the columns it reads (`title`, `url`) and writes (`relevance_score`),
plus the remaining record columns. -/
structure Row where
  title : Cell
  url : Cell
  source : String
  description : String
  relevance_score : Option ℚ
deriving DecidableEq

/-- The exceptions arising in the ranking path. -/
inductive PandasError
  | typeError
  | invalidDocument
  | emptyVocabulary
deriving DecidableEq

/-- The elementwise evaluation of
`candidates["title"] + " " + candidates["url"]` for one row
(`video_recommender_main.py:163`, *outside* the `try`):
* a numeric title raises `TypeError` (`int + str`);
* a `NaN` title is masked by pandas and yields `NaN` without looking at
  the url;
* a string title concatenates with a string url, yields `NaN` for a
  `NaN` url, and raises `TypeError` for a numeric url. -/
def rowText (r : Row) : Except PandasError (Option String) :=
  match r.title, r.url with
  | .other, _ => .error .typeError
  | .nan, _ => .ok none
  | .str t, .str u => .ok (some (t ++ " " ++ u))
  | .str _, .nan => .ok none
  | .str _, .other => .error .typeError

/-- sklearn's default tokenization (`token_pattern=r"(?u)\b\w\w+\b"` on
the lower-cased text): maximal runs of word characters of length at
least 2, followed by stop-word removal (`stop_words="english"` is the
built-in list, abstracted as the predicate `stop`). -/
def tokenize (stop : String → Bool) (s : String) : List String :=
  (((splitCharsAux (fun c => !isWordChar c) (strToLower s).data []).map String.mk).filter
    (fun t => 2 ≤ t.length)).filter (fun t => !stop t)

/-- A fitted `TfidfVectorizer`: its stop-word configuration, the learned
vocabulary (sorted term list) and the per-term idf weights. -/
structure Vectorizer where
  stop : String → Bool
  vocab : List String
  idfs : List ℚ

/-- `vectorizer.transform` on one document: the vector indexed by the
fitted vocabulary whose entry for term `t` is the term count in the
document times the term's idf weight.  (sklearn additionally divides
each non-zero row by its Euclidean norm — a positive scalar per row that
changes neither the zero pattern, the dimensionality, nor any cosine
similarity; the model omits that rescaling so as to stay in `ℚ`.) -/
def transformDoc (v : Vectorizer) (doc : String) : List ℚ :=
  List.zipWith (fun t w => (((tokenize v.stop doc).count t : ℕ) : ℚ) * w) v.vocab v.idfs

/-- `vectorizer.transform` on a column of documents: raises
`ValueError("np.nan is an invalid document")` when any entry is `NaN`,
otherwise transforms each document. -/
def transformDocs (v : Vectorizer) (texts : List (Option String)) :
    Except PandasError (List (List ℚ)) :=
  if texts.all (fun o => o.isSome) then
    .ok (texts.map (fun o => transformDoc v (o.getD "")))
  else
    .error .invalidDocument

/-- Lexicographic order on character lists by code point, the order
Python sorts strings in.  (Lean's built-in `String` order does not
kernel-reduce, hence this explicit version.) -/
def charListLe : List Char → List Char → Bool
  | [], _ => true
  | _ :: _, [] => false
  | a :: as, b :: bs =>
    if a.toNat < b.toNat then true
    else if b.toNat < a.toNat then false
    else charListLe as bs

/-- String comparison by code points (Python `sorted` order). -/
def strLe (a b : String) : Bool := charListLe a.data b.data

/-- The vocabulary learned by `fit`: the distinct tokens of the corpus,
sorted alphabetically (sklearn sorts its vocabulary). -/
def buildVocab (docs : List (List String)) : List String :=
  sSort strLe (docs.flatMap id).dedup

/-- Document frequency of a term in the tokenized corpus. -/
def docFreq (docs : List (List String)) (t : String) : ℕ :=
  (docs.filter (fun d => decide (t ∈ d))).length

/-- The vectorizer `fit` learns on a corpus: vocabulary from the
tokenized corpus and one idf weight per vocabulary term.  sklearn's
smoothed idf weight `ln((1+n)/(1+df)) + 1` is a positive real; it is
abstracted as the parameter `idfW n df`, constrained positive in the
theorems, since every verified property depends only on its
positivity. -/
def fitVectorizer (stop : String → Bool) (idfW : ℕ → ℕ → ℚ) (corpus : List String) :
    Vectorizer :=
  { stop := stop
    vocab := buildVocab (corpus.map (tokenize stop))
    idfs := (buildVocab (corpus.map (tokenize stop))).map
      (fun t => idfW corpus.length (docFreq (corpus.map (tokenize stop)) t)) }

/-- `TfidfVectorizer(stop_words="english").fit_transform(corpus)`
(`video_recommender_main.py:89-90`): learn the vocabulary and idf
weights from the corpus and transform the corpus with them; an empty
vocabulary (empty corpus, or all tokens removed) raises
`ValueError("empty vocabulary; ...")`. -/
def fitTransform (stop : String → Bool) (idfW : ℕ → ℕ → ℚ) (corpus : List String) :
    Except PandasError (Vectorizer × List (List ℚ)) :=
  if (buildVocab (corpus.map (tokenize stop))).isEmpty then
    .error .emptyVocabulary
  else
    .ok (fitVectorizer stop idfW corpus, corpus.map (transformDoc (fitVectorizer stop idfW corpus)))

/-- One bookmark row, as produced by `parse_bookmarks_from_file`: every
field is a genuine string. -/
structure Bm where
  title : String
  url : String
  source : String
  description : String
deriving DecidableEq

/-- `bookmarks["title"] + " " + bookmarks["url"]`
(`video_recommender_main.py:88`) for one row of string cells. -/
def bmText (b : Bm) : String := b.title ++ " " ++ b.url

/-- `tfidf_matrix.mean(axis=0)` (`video_recommender_main.py:91`): the
column means of an `n × d` matrix, as a length-`d` vector. -/
def meanColumns (mat : List (List ℚ)) (d : ℕ) : List ℚ :=
  (List.range d).map (fun i => ((mat.map (fun r => r.getD i 0)).sum) / (mat.length : ℚ))

/-- `build_user_profile` (`video_recommender_main.py:74-92`): return
`(None, None)` on an empty bookmark frame; otherwise fit a TF-IDF
vectorizer on the concatenated `title + " " + url` texts, transform them
back through it and average the rows into one profile vector. -/
def build_user_profile (stop : String → Bool) (idfW : ℕ → ℕ → ℚ) (bms : List Bm) :
    Except PandasError (Option Vectorizer × Option (List ℚ)) :=
  if bms.isEmpty then .ok (none, none)
  else
    match fitTransform stop idfW (bms.map bmText) with
    | .error e => .error e
    | .ok (v, mat) => .ok (some v, some (meanColumns mat v.vocab.length))

/-- The profile vector `build_user_profile` computes for a non-empty
bookmark frame: the column means of the fitted TF-IDF matrix of the
concatenated texts. -/
def userProfileVec (stop : String → Bool) (idfW : ℕ → ℕ → ℚ) (bms : List Bm) : List ℚ :=
  meanColumns ((bms.map bmText).map (transformDoc (fitVectorizer stop idfW (bms.map bmText))))
    (fitVectorizer stop idfW (bms.map bmText)).vocab.length

/-- The sort key of `nlargest(top_n, "relevance_score")`. -/
def relScore (r : Row) : ℚ := r.relevance_score.getD 0

/-- `candidates.nlargest(top_n, "relevance_score")` with the default
`keep='first'`: extensionally, drop rows whose score is missing, sort
the rest descending by score — stably, first occurrences first — and
keep the first `top_n` rows. -/
def nlargestByScore (top_n : ℕ) (rows : List Row) : List Row :=
  (sSort (fun a b => decide (relScore b ≤ relScore a))
    (rows.filter (fun r => r.relevance_score.isSome))).take top_n

/-- `candidates["relevance_score"] = scores` for one row. -/
def setScore (r : Row) (q : ℚ) : Row := { r with relevance_score := some q }

/-- The whole column `candidates["title"] + " " + candidates["url"]`:
`rowText` row by row, aborting with the `TypeError` if any row raises. -/
def rowTexts : List Row → Except PandasError (List (Option String))
  | [] => .ok []
  | r :: rs =>
    match rowText r with
    | .error e => .error e
    | .ok t =>
      match rowTexts rs with
      | .error e => .error e
      | .ok ts => .ok (t :: ts)

/-- `recommend_videos` (`video_recommender_main.py:147-171`), returning
the pair (candidates frame after the call, returned frame):
* the guard `not candidates.empty and vectorizer is not None and
  user_profile is not None` fails → return an empty frame, candidates
  untouched;
* `text = candidates["title"] + " " + candidates["url"]` runs *outside*
  the `try`, so its `TypeError` propagates to the caller;
* inside the `try`, a transform failure is caught (`print(e)`) and an
  empty frame is returned, candidates untouched;
* otherwise the `relevance_score` column is assigned in place
  (mutating the caller's frame) and the `top_n` largest rows by score
  are returned.
`cosSim` abstracts `cosine_similarity(row, user_profile)`
(`video_recommender_main.py:166`); every verified property holds for an
arbitrary score function. -/
def recommend_videos (cosSim : List ℚ → List ℚ → ℚ) (cands : List Row)
    (vOpt : Option Vectorizer) (pOpt : Option (List ℚ)) (top_n : ℕ) :
    Except PandasError (List Row × List Row) :=
  match vOpt, pOpt with
  | some v, some p =>
    if cands.isEmpty then .ok (cands, [])
    else
      match rowTexts cands with
      | .error e => .error e
      | .ok texts =>
        match transformDocs v texts with
        | .error _ => .ok (cands, [])
        | .ok mat =>
          .ok (List.zipWith setScore cands (mat.map (fun row => cosSim row p)),
               nlargestByScore top_n
                 (List.zipWith setScore cands (mat.map (fun row => cosSim row p))))
  | _, _ => .ok (cands, [])

/-- The per-anchor data `BeautifulSoup` hands to the loop of
`parse_bookmarks_from_file` (`video_recommender_main.py:55-69`):
`link.text` (always a string, possibly empty) and `link.get("href")`
(absent when the anchor has no href attribute). -/
structure Anchor where
  text : String
  href : Option String
deriving DecidableEq

/-- The loop body of `parse_bookmarks_from_file`
(`video_recommender_main.py:55-69`): `title` is the stripped anchor text
when the text is truthy, else `"No Title"`; `url` is the stripped href
with default `""`; `source` is the part of `url` before the first `/`
when `url` is truthy, else `"Unknown Source"`; `description` is always
`""`.  Every anchor produces exactly one record. -/
def anchorToBookmark (a : Anchor) : Bm :=
  { title := if a.text = "" then "No Title" else strTrim a.text
    url := strTrim (a.href.getD "")
    source :=
      if strTrim (a.href.getD "") = "" then "Unknown Source"
      else String.mk ((strTrim (a.href.getD "")).data.takeWhile (fun c => c ≠ '/'))
    description := "" }

/-- `parse_bookmarks_from_file` (`video_recommender_main.py:43-71`) with
the HTML parsing of the file content abstracted as the anchor list that
`soup.find_all("a")` yields: the records appended for the anchors, in
order. -/
def parse_bookmarks_from_file (anchors : List Anchor) : List Bm :=
  anchors.map anchorToBookmark

/-! ### Lemmas about `nlargest` and `recommend_videos` -/

theorem nlargestByScore_length_le (n : ℕ) (rows : List Row) :
    (nlargestByScore n rows).length ≤ n := by
  unfold nlargestByScore
  rw [List.length_take]
  exact min_le_left _ _

theorem nlargestByScore_length_le_rows (n : ℕ) (rows : List Row) :
    (nlargestByScore n rows).length ≤ rows.length := by
  unfold nlargestByScore
  calc ((sSort (fun a b => decide (relScore b ≤ relScore a))
        (rows.filter (fun r => r.relevance_score.isSome))).take n).length
      ≤ (sSort (fun a b => decide (relScore b ≤ relScore a))
        (rows.filter (fun r => r.relevance_score.isSome))).length :=
        (List.take_sublist _ _).length_le
    _ = (rows.filter (fun r => r.relevance_score.isSome)).length := length_sSort _ _
    _ ≤ rows.length := (List.filter_sublist rows).length_le

theorem nlargestByScore_sorted (n : ℕ) (rows : List Row) :
    (nlargestByScore n rows).Pairwise (fun a b => relScore b ≤ relScore a) := by
  have htot : ∀ a b : Row, decide (relScore b ≤ relScore a) = false →
      decide (relScore a ≤ relScore b) = true := by
    intro a b h
    have : ¬ (relScore b ≤ relScore a) := of_decide_eq_false h
    exact decide_eq_true (le_of_not_le this)
  have htrans : ∀ a b c : Row, decide (relScore b ≤ relScore a) = true →
      decide (relScore c ≤ relScore b) = true → decide (relScore c ≤ relScore a) = true := by
    intro a b c h1 h2
    exact decide_eq_true (le_trans (of_decide_eq_true h2) (of_decide_eq_true h1))
  have hsorted := pairwise_sSort (fun a b => decide (relScore b ≤ relScore a)) htot htrans
    (rows.filter (fun r => r.relevance_score.isSome))
  have hsub : (nlargestByScore n rows).Pairwise
      (fun a b => decide (relScore b ≤ relScore a) = true) :=
    hsorted.sublist (List.take_sublist _ _)
  exact hsub.imp (fun h => of_decide_eq_true h)

theorem nlargestByScore_stable (n : ℕ) (rows : List Row) (q : ℚ) :
    List.Sublist
      ((nlargestByScore n rows).filter (fun r => decide (r.relevance_score = some q)))
      (rows.filter (fun r => decide (r.relevance_score = some q))) := by
  have hcongr : ∀ l : List Row, (∀ r ∈ l, r.relevance_score.isSome = true) →
      l.filter (fun r => decide (r.relevance_score = some q)) =
        l.filter (fun r => decide (relScore r = q)) := by
    intro l hl
    refine List.filter_congr ?_
    intro r hr
    rcases Option.isSome_iff_exists.mp (hl r hr) with ⟨s, hs⟩
    have h1 : (r.relevance_score = some q) ↔ (relScore r = q) := by
      rw [hs]
      unfold relScore
      rw [hs]
      simp
    exact decide_eq_decide.mpr h1
  have hmem : ∀ r ∈ sSort (fun a b => decide (relScore b ≤ relScore a))
      (rows.filter (fun r => r.relevance_score.isSome)), r.relevance_score.isSome = true := by
    intro r hr
    have := (mem_sSort _ r _).mp hr
    exact (List.mem_filter.mp this).2
  have hmem2 : ∀ r ∈ rows.filter (fun r => r.relevance_score.isSome),
      r.relevance_score.isSome = true := by
    intro r hr
    exact (List.mem_filter.mp hr).2
  have h1 : List.Sublist
      ((nlargestByScore n rows).filter (fun r => decide (r.relevance_score = some q)))
      ((sSort (fun a b => decide (relScore b ≤ relScore a))
        (rows.filter (fun r => r.relevance_score.isSome))).filter
          (fun r => decide (r.relevance_score = some q))) :=
    (List.take_sublist _ _).filter _
  have h2 : (sSort (fun a b => decide (relScore b ≤ relScore a))
      (rows.filter (fun r => r.relevance_score.isSome))).filter
        (fun r => decide (r.relevance_score = some q)) =
      (rows.filter (fun r => r.relevance_score.isSome)).filter
        (fun r => decide (r.relevance_score = some q)) := by
    rw [hcongr _ hmem, hcongr _ hmem2]
    exact filter_sSort_key relScore q _
  have h3 : List.Sublist
      ((rows.filter (fun r => r.relevance_score.isSome)).filter
        (fun r => decide (r.relevance_score = some q)))
      (rows.filter (fun r => decide (r.relevance_score = some q))) :=
    (List.filter_sublist rows).filter _
  rw [h2] at h1
  exact h1.trans h3

/-- **C3.** Whenever `recommend_videos` returns (post-state `post` of the
candidates frame, result `res`), the result has at most `top_n` rows and
no more rows than the candidate frame, is sorted by non-increasing
relevance score, and rows of equal score appear in their original
relative order (stable selection): for every score value, filtering the
result on that score yields a subsequence of the post-state frame (whose
row order is the candidates' original order) filtered the same way. -/
theorem C3_rank_sorted_stable_bounded (cosSim : List ℚ → List ℚ → ℚ) (cands : List Row)
    (vOpt : Option Vectorizer) (pOpt : Option (List ℚ)) (k : ℕ) (post res : List Row)
    (heq : recommend_videos cosSim cands vOpt pOpt k = .ok (post, res)) :
    res.length ≤ k
    ∧ res.length ≤ cands.length
    ∧ res.Pairwise (fun a b => relScore b ≤ relScore a)
    ∧ ∀ q : ℚ, List.Sublist (res.filter (fun r => decide (r.relevance_score = some q)))
        (post.filter (fun r => decide (r.relevance_score = some q))) := by
  have hempty : ∀ (h : (cands, ([] : List Row)) = (post, res)),
      res.length ≤ k ∧ res.length ≤ cands.length
      ∧ res.Pairwise (fun a b => relScore b ≤ relScore a)
      ∧ ∀ q : ℚ, List.Sublist (res.filter (fun r => decide (r.relevance_score = some q)))
          (post.filter (fun r => decide (r.relevance_score = some q))) := by
    intro h
    obtain ⟨h1, h2⟩ := Prod.mk.injEq .. |>.mp h
    subst h1
    rw [← h2]
    refine ⟨by simp, by simp, by simp, ?_⟩
    intro q
    simp
  cases vOpt with
  | none =>
    simp only [recommend_videos] at heq
    exact hempty (Except.ok.inj heq)
  | some v =>
    cases pOpt with
    | none =>
      simp only [recommend_videos] at heq
      exact hempty (Except.ok.inj heq)
    | some p =>
      simp only [recommend_videos] at heq
      by_cases hc : cands.isEmpty
      · rw [if_pos hc] at heq
        exact hempty (Except.ok.inj heq)
      · rw [if_neg hc] at heq
        cases htexts : rowTexts cands with
        | error e =>
          rw [htexts] at heq
          exact absurd heq (by simp)
        | ok texts =>
          simp only [htexts] at heq
          cases hmat : transformDocs v texts with
          | error e =>
            simp only [hmat] at heq
            exact hempty (Except.ok.inj heq)
          | ok mat =>
            simp only [hmat] at heq
            obtain ⟨h1, h2⟩ := Prod.mk.injEq .. |>.mp (Except.ok.inj heq)
            rw [← h1, ← h2]
            refine ⟨nlargestByScore_length_le _ _, ?_, nlargestByScore_sorted _ _, ?_⟩
            · calc (nlargestByScore k
                  (List.zipWith setScore cands (mat.map (fun row => cosSim row p)))).length
                  ≤ (List.zipWith setScore cands (mat.map (fun row => cosSim row p))).length :=
                    nlargestByScore_length_le_rows _ _
                _ ≤ cands.length := by
                    rw [List.length_zipWith]
                    exact min_le_left _ _
            · intro q
              exact nlargestByScore_stable k _ q

/-- **C3 (witness).** The theorem applied to a concrete one-candidate
call (empty-vocabulary vectorizer, constant score function). -/
theorem C3_witness :
    ([⟨.str "a", .str "u", "s", "", some 0⟩] : List Row).length ≤ 2
    ∧ ([⟨.str "a", .str "u", "s", "", some 0⟩] : List Row).length ≤
        ([⟨.str "a", .str "u", "s", "", none⟩] : List Row).length
    ∧ ([⟨.str "a", .str "u", "s", "", some 0⟩] : List Row).Pairwise
        (fun a b => relScore b ≤ relScore a) := by
  have h := C3_rank_sorted_stable_bounded (fun _ _ => (0 : ℚ))
    [⟨.str "a", .str "u", "s", "", none⟩]
    (some ⟨fun _ => false, [], []⟩) (some []) 2
    [⟨.str "a", .str "u", "s", "", some 0⟩] [⟨.str "a", .str "u", "s", "", some 0⟩]
    rfl
  exact ⟨h.1, h.2.1, h.2.2.1⟩

/-- **C7 (amended).** `recommend_videos` returns an empty result frame
(and leaves the candidates untouched) when the candidate frame is empty,
the vectorizer is `None`, the profile is `None`, or the transform of the
candidate text fails on a `NaN` entry; but a numeric non-string,
non-`NaN` value in the `title`/`url` columns raises `TypeError` at the
text-construction line, which sits outside the guarded `try`, and that
error does propagate to the caller (see the counterexample). -/
theorem C7_nothing_to_rank_empty_result (cosSim : List ℚ → List ℚ → ℚ) (cands : List Row)
    (vOpt : Option Vectorizer) (pOpt : Option (List ℚ)) (v : Vectorizer) (p : List ℚ) (k : ℕ) :
    recommend_videos cosSim [] vOpt pOpt k = .ok ([], [])
    ∧ recommend_videos cosSim cands none pOpt k = .ok (cands, [])
    ∧ recommend_videos cosSim cands vOpt none k = .ok (cands, [])
    ∧ (∀ texts, rowTexts cands = .ok texts → texts.all (fun o => o.isSome) = false →
        recommend_videos cosSim cands (some v) (some p) k = .ok (cands, [])) := by
  refine ⟨?_, ?_, ?_, ?_⟩
  · cases vOpt with
    | none => rfl
    | some v' =>
      cases pOpt with
      | none => rfl
      | some p' => rfl
  · cases pOpt with
    | none => rfl
    | some p' => rfl
  · cases vOpt with
    | none => rfl
    | some v' => rfl
  · intro texts htexts hnan
    by_cases hc : cands.isEmpty
    · have hnil : cands = [] := List.isEmpty_iff.mp hc
      subst hnil
      rfl
    · simp only [recommend_videos]
      rw [if_neg hc]
      simp only [htexts]
      have : transformDocs v texts = .error .invalidDocument := by
        unfold transformDocs
        rw [if_neg]
        rw [hnan]
        decide
      simp only [this]

/-- **C7 (counterexample to the claim as stated).** A candidate whose
`title` cell holds a numeric non-string value: the elementwise
`candidates["title"] + " "` raises `TypeError` on the line before the
`try`, so `recommend_videos` raises instead of returning an empty
result. -/
theorem C7_counterexample :
    recommend_videos (fun _ _ => (0 : ℚ)) [⟨.other, .str "u", "s", "", none⟩]
      (some ⟨fun _ => false, ["aa"], [1]⟩) (some [1]) 30 = .error .typeError := rfl

/-- **C7 (witness).** The amended claim applied to concrete inputs: an
empty frame, a missing vectorizer, a missing profile, and a `NaN` title
whose transform failure is swallowed. -/
theorem C7_witness :
    recommend_videos (fun _ _ => (0 : ℚ)) [] (some ⟨fun _ => false, [], []⟩) (some []) 3
      = .ok ([], [])
    ∧ recommend_videos (fun _ _ => (0 : ℚ)) [⟨.str "a", .str "u", "s", "", none⟩] none (some []) 3
      = .ok ([⟨.str "a", .str "u", "s", "", none⟩], [])
    ∧ recommend_videos (fun _ _ => (0 : ℚ)) [⟨.str "a", .str "u", "s", "", none⟩]
        (some ⟨fun _ => false, [], []⟩) none 3
      = .ok ([⟨.str "a", .str "u", "s", "", none⟩], [])
    ∧ recommend_videos (fun _ _ => (0 : ℚ)) [⟨.nan, .str "u", "s", "", none⟩]
        (some ⟨fun _ => false, [], []⟩) (some []) 3
      = .ok ([⟨.nan, .str "u", "s", "", none⟩], []) := by
  have h1 := C7_nothing_to_rank_empty_result (fun _ _ => (0 : ℚ))
    ([] : List Row) (some ⟨fun _ => false, [], []⟩) (some []) ⟨fun _ => false, [], []⟩ [] 3
  have h2 := C7_nothing_to_rank_empty_result (fun _ _ => (0 : ℚ))
    [⟨.str "a", .str "u", "s", "", none⟩] (some ⟨fun _ => false, [], []⟩) (some [])
    ⟨fun _ => false, [], []⟩ [] 3
  have h3 := C7_nothing_to_rank_empty_result (fun _ _ => (0 : ℚ))
    [⟨.nan, .str "u", "s", "", none⟩] (some ⟨fun _ => false, [], []⟩) (some [])
    ⟨fun _ => false, [], []⟩ [] 3
  exact ⟨h1.1, h2.2.1, h2.2.2.1, h3.2.2.2 [none] rfl rfl⟩

/-- **C8 (amended).** Bookmark parsing emits exactly one record per
anchor — nothing is dropped: an anchor with no resolvable URL yields a
record with an empty `url`.  The `title` is the stripped anchor text, or
`"No Title"` when the text is empty (so it can still be the empty string
for whitespace-only anchor text); `description` is always empty; and
`source` is the part of the url before the first `/`, or
`"Unknown Source"` when the url is empty. -/
theorem C8_parse_bookmarks_shape (anchors : List Anchor) :
    (parse_bookmarks_from_file anchors).length = anchors.length
    ∧ (∀ i (h : i < (parse_bookmarks_from_file anchors).length) (h2 : i < anchors.length),
        (parse_bookmarks_from_file anchors).get ⟨i, h⟩ = anchorToBookmark (anchors.get ⟨i, h2⟩))
    ∧ (∀ b ∈ parse_bookmarks_from_file anchors,
        b.description = ""
        ∧ (b.url = "" → b.source = "Unknown Source")
        ∧ (b.url ≠ "" → b.source = String.mk (b.url.data.takeWhile (fun c => c ≠ '/'))))
    ∧ ∀ a ∈ anchors, a.text = "" → (anchorToBookmark a).title = "No Title" := by
  refine ⟨by simp [parse_bookmarks_from_file], ?_, ?_, ?_⟩
  · intro i h h2
    simp [parse_bookmarks_from_file]
  · intro b hb
    rcases List.mem_map.mp hb with ⟨a, _, rfl⟩
    unfold anchorToBookmark
    by_cases hu : strTrim (a.href.getD "") = ""
    · refine ⟨rfl, fun _ => by simp [hu], fun hne => ?_⟩
      exact absurd hu hne
    · refine ⟨rfl, fun heq => absurd heq (by simpa using hu), fun _ => by simp [hu]⟩
  · intro a _ htext
    unfold anchorToBookmark
    simp [htext]

/-- **C8 (counterexample to the claim as stated).** An anchor with text
`"x"` and no `href`: the parser emits a record with an *empty* url
(`title` non-empty, `source` `"Unknown Source"`) instead of dropping the
entry. -/
theorem C8_counterexample :
    parse_bookmarks_from_file [⟨"x", none⟩] = [⟨"x", "", "Unknown Source", ""⟩]
    ∧ (parse_bookmarks_from_file [⟨"x", none⟩]).length = 1 := by
  exact ⟨by decide, by decide⟩

/-- **C8 (witness).** The amended claim applied to two concrete anchors
(one normal, one with empty text). -/
theorem C8_witness :
    (parse_bookmarks_from_file [⟨" hi ", some "https://a.b/c"⟩, ⟨"", some "u"⟩]).length = 2
    ∧ (anchorToBookmark ⟨"", some "u"⟩).title = "No Title" := by
  have h := C8_parse_bookmarks_shape [⟨" hi ", some "https://a.b/c"⟩, ⟨"", some "u"⟩]
  exact ⟨h.1, h.2.2.2 ⟨"", some "u"⟩ (by decide) rfl⟩

theorem rowTexts_length (cands : List Row) :
    ∀ texts, rowTexts cands = .ok texts → texts.length = cands.length := by
  induction cands with
  | nil =>
    intro texts h
    have := Except.ok.inj h
    rw [← this]
    rfl
  | cons r rs ih =>
    intro texts h
    simp only [rowTexts] at h
    cases hr : rowText r with
    | error e =>
      rw [hr] at h
      exact absurd h (by simp)
    | ok t =>
      simp only [hr] at h
      cases hrs : rowTexts rs with
      | error e =>
        simp only [hrs] at h
        exact absurd h (by simp)
      | ok ts =>
        simp only [hrs] at h
        have hinj := Except.ok.inj h
        rw [← hinj]
        simp only [List.length_cons]
        rw [ih ts hrs]

theorem transformDocs_ok (v : Vectorizer) (texts : List (Option String))
    (mat : List (List ℚ)) (h : transformDocs v texts = .ok mat) :
    mat = texts.map (fun o => transformDoc v (o.getD "")) ∧ mat.length = texts.length := by
  unfold transformDocs at h
  by_cases hall : texts.all (fun o => o.isSome)
  · rw [if_pos hall] at h
    have := Except.ok.inj h
    constructor
    · rw [← this]
    · rw [← this]
      simp
  · rw [if_neg hall] at h
    exact absurd h (by simp)

/-- **C10.** When the candidate frame is non-empty, vectorizer and
profile are present, and the transform succeeds, `recommend_videos`
mutates its candidates argument in place: the post-state frame has
exactly one row per candidate row, identical in `title`, `url`,
`source` and `description`, with the `relevance_score` column set (added
or overwritten) to the similarity score of that row's transformed text
against the profile. -/
theorem C10_score_column_in_place (cosSim : List ℚ → List ℚ → ℚ) (cands : List Row)
    (v : Vectorizer) (p : List ℚ) (k : ℕ) (texts : List (Option String)) (mat : List (List ℚ))
    (hne : cands ≠ [])
    (htexts : rowTexts cands = .ok texts)
    (hmat : transformDocs v texts = .ok mat) :
    recommend_videos cosSim cands (some v) (some p) k =
      .ok (List.zipWith setScore cands (mat.map (fun row => cosSim row p)),
           nlargestByScore k (List.zipWith setScore cands (mat.map (fun row => cosSim row p))))
    ∧ (List.zipWith setScore cands (mat.map (fun row => cosSim row p))).length = cands.length
    ∧ ∀ i (h1 : i < (List.zipWith setScore cands (mat.map (fun row => cosSim row p))).length)
        (h2 : i < cands.length) (h3 : i < mat.length),
        ((List.zipWith setScore cands (mat.map (fun row => cosSim row p))).get ⟨i, h1⟩).title
            = (cands.get ⟨i, h2⟩).title
        ∧ ((List.zipWith setScore cands (mat.map (fun row => cosSim row p))).get ⟨i, h1⟩).url
            = (cands.get ⟨i, h2⟩).url
        ∧ ((List.zipWith setScore cands (mat.map (fun row => cosSim row p))).get ⟨i, h1⟩).source
            = (cands.get ⟨i, h2⟩).source
        ∧ ((List.zipWith setScore cands (mat.map (fun row => cosSim row p))).get ⟨i, h1⟩).description
            = (cands.get ⟨i, h2⟩).description
        ∧ ((List.zipWith setScore cands (mat.map (fun row => cosSim row p))).get ⟨i, h1⟩).relevance_score
            = some (cosSim (mat.get ⟨i, h3⟩) p) := by
  have hlen : (List.zipWith setScore cands (mat.map (fun row => cosSim row p))).length
      = cands.length := by
    rw [List.length_zipWith, List.length_map, (transformDocs_ok v texts mat hmat).2,
      rowTexts_length cands texts htexts]
    exact min_self _
  refine ⟨?_, hlen, ?_⟩
  · have hc : ¬ (cands.isEmpty = true) := by
      rw [List.isEmpty_iff]
      exact hne
    simp only [recommend_videos]
    rw [if_neg hc]
    simp only [htexts, hmat]
  · intro i h1 h2 h3
    have hgz : (List.zipWith setScore cands (mat.map (fun row => cosSim row p))).get ⟨i, h1⟩
        = setScore (cands.get ⟨i, h2⟩) ((mat.map (fun row => cosSim row p)).get
            ⟨i, by rw [List.length_map]; exact h3⟩) := by
      simp [List.getElem_zipWith]
    have hgm : (mat.map (fun row => cosSim row p)).get ⟨i, by rw [List.length_map]; exact h3⟩
        = cosSim (mat.get ⟨i, h3⟩) p := by
      simp
    rw [hgz, hgm]
    exact ⟨rfl, rfl, rfl, rfl, rfl⟩

/-- **C10 (witness).** The theorem applied to one concrete candidate row
with an empty-vocabulary vectorizer and a constant similarity of `1/2`:
the post-state row keeps every column and gains `relevance_score =
1/2`. -/
theorem C10_witness :
    recommend_videos (fun _ _ => (1 : ℚ) / 2) [⟨.str "a", .str "u", "s", "d", none⟩]
      (some ⟨fun _ => false, [], []⟩) (some []) 7 =
      .ok (List.zipWith setScore [⟨.str "a", .str "u", "s", "d", none⟩]
            (([[]] : List (List ℚ)).map (fun row => (fun _ _ => (1 : ℚ) / 2) row ([] : List ℚ))),
           nlargestByScore 7 (List.zipWith setScore [⟨.str "a", .str "u", "s", "d", none⟩]
            (([[]] : List (List ℚ)).map (fun row => (fun _ _ => (1 : ℚ) / 2) row ([] : List ℚ)))))
    ∧ (List.zipWith setScore [⟨.str "a", .str "u", "s", "d", none⟩]
        (([[]] : List (List ℚ)).map (fun row => (fun _ _ => (1 : ℚ) / 2) row ([] : List ℚ)))).length
        = 1 := by
  have h := C10_score_column_in_place (fun _ _ => (1 : ℚ) / 2)
    [⟨.str "a", .str "u", "s", "d", none⟩] ⟨fun _ => false, [], []⟩ [] 7
    [some ("a" ++ " " ++ "u")] [[]]
    (by simp) rfl rfl
  exact ⟨h.1, h.2.1⟩

/-! ### Lemmas for the profile builder -/

theorem getD_zipWith_q (f : α → β → ℚ) (as : List α) (bs : List β) (i : ℕ)
    (ha : i < as.length) (hb : i < bs.length) :
    (List.zipWith f as bs).getD i 0 = f (as.get ⟨i, ha⟩) (bs.get ⟨i, hb⟩) := by
  have hi : i < (List.zipWith f as bs).length := by
    rw [List.length_zipWith]
    omega
  rw [List.getD_eq_getElem _ _ hi]
  simp [List.getElem_zipWith]

theorem meanColumns_length (mat : List (List ℚ)) (d : ℕ) :
    (meanColumns mat d).length = d := by
  simp [meanColumns]

theorem meanColumns_get (mat : List (List ℚ)) (d i : ℕ)
    (h : i < (meanColumns mat d).length) :
    (meanColumns mat d).get ⟨i, h⟩ =
      ((mat.map (fun r => r.getD i 0)).sum) / (mat.length : ℚ) := by
  unfold meanColumns
  simp

/-- The vocabulary and idf list of a fitted vectorizer have the same
length. -/
theorem fitVectorizer_idfs_length (stop : String → Bool) (idfW : ℕ → ℕ → ℚ)
    (corpus : List String) :
    (fitVectorizer stop idfW corpus).idfs.length
      = (fitVectorizer stop idfW corpus).vocab.length := by
  simp [fitVectorizer]

/-- Every vocabulary term occurs in some tokenized document of the
corpus it was built from. -/
theorem mem_buildVocab (docs : List (List String)) (t : String)
    (h : t ∈ buildVocab docs) : ∃ d ∈ docs, t ∈ d := by
  unfold buildVocab at h
  have h1 : t ∈ (docs.flatMap id).dedup := (mem_sSort _ t _).mp h
  have h2 : t ∈ docs.flatMap id := List.mem_dedup.mp h1
  rcases List.mem_flatMap.mp h2 with ⟨d, hd, ht⟩
  exact ⟨d, hd, ht⟩

/-- Every entry of a transformed document is non-negative when the idf
weights are positive. -/
theorem transformDoc_getD_nonneg (stop : String → Bool) (idfW : ℕ → ℕ → ℚ)
    (corpus : List String) (hpos : ∀ n d, 0 < idfW n d) (s : String) (i : ℕ) :
    0 ≤ (transformDoc (fitVectorizer stop idfW corpus) s).getD i 0 := by
  by_cases hi : i < (List.zipWith
      (fun t w => (((tokenize (fitVectorizer stop idfW corpus).stop s).count t : ℕ) : ℚ) * w)
      (fitVectorizer stop idfW corpus).vocab (fitVectorizer stop idfW corpus).idfs).length
  · unfold transformDoc
    have hv : i < (fitVectorizer stop idfW corpus).vocab.length := by
      rw [List.length_zipWith, fitVectorizer_idfs_length] at hi
      omega
    have hw : i < (fitVectorizer stop idfW corpus).idfs.length := by
      rw [fitVectorizer_idfs_length]
      exact hv
    rw [getD_zipWith_q _ _ _ i hv hw]
    have hidf : 0 < (fitVectorizer stop idfW corpus).idfs.get ⟨i, hw⟩ := by
      have : (fitVectorizer stop idfW corpus).idfs.get ⟨i, hw⟩ =
          idfW corpus.length (docFreq (corpus.map (tokenize stop))
            ((buildVocab (corpus.map (tokenize stop))).get
              ⟨i, by simpa [fitVectorizer] using hv⟩)) := by
        simp [fitVectorizer]
      rw [this]
      exact hpos _ _
    exact mul_nonneg (Nat.cast_nonneg _) (le_of_lt hidf)
  · unfold transformDoc
    rw [List.getD_eq_default]
    omega

/-- The entry of a transformed document at a vocabulary index whose term
occurs in the document is strictly positive. -/
theorem transformDoc_getD_pos (stop : String → Bool) (idfW : ℕ → ℕ → ℚ)
    (corpus : List String) (hpos : ∀ n d, 0 < idfW n d) (s : String) (i : ℕ)
    (hv : i < (fitVectorizer stop idfW corpus).vocab.length)
    (hmem : (fitVectorizer stop idfW corpus).vocab.get ⟨i, hv⟩ ∈ tokenize stop s) :
    0 < (transformDoc (fitVectorizer stop idfW corpus) s).getD i 0 := by
  have hw : i < (fitVectorizer stop idfW corpus).idfs.length := by
    rw [fitVectorizer_idfs_length]
    exact hv
  unfold transformDoc
  rw [getD_zipWith_q _ _ _ i hv hw]
  have hcount : 0 < (tokenize (fitVectorizer stop idfW corpus).stop s).count
      ((fitVectorizer stop idfW corpus).vocab.get ⟨i, hv⟩) := by
    refine List.count_pos_iff.mpr ?_
    exact hmem
  have hidf : 0 < (fitVectorizer stop idfW corpus).idfs.get ⟨i, hw⟩ := by
    have : (fitVectorizer stop idfW corpus).idfs.get ⟨i, hw⟩ =
        idfW corpus.length (docFreq (corpus.map (tokenize stop))
          ((buildVocab (corpus.map (tokenize stop))).get
            ⟨i, by simpa [fitVectorizer] using hv⟩)) := by
      simp [fitVectorizer]
    rw [this]
    exact hpos _ _
  exact mul_pos (by exact_mod_cast hcount) hidf

/-- **C6 (amended).** `build_user_profile` returns `(None, None)` on the
empty bookmark set.  On a non-empty bookmark set whose concatenated
`title + " " + url` texts yield a non-empty vocabulary, it returns a
fitted vectorizer and a profile vector whose dimensionality equals the
vectorizer's vocabulary size, is non-zero, and whose every coordinate is
strictly positive.  (A non-empty bookmark set whose texts yield no
vocabulary term makes the fit raise instead — see the counterexample.) -/
theorem C6_build_profile (stop : String → Bool) (idfW : ℕ → ℕ → ℚ) (bms : List Bm)
    (hpos : ∀ n d, 0 < idfW n d)
    (hne : bms ≠ [])
    (hvocab : buildVocab ((bms.map bmText).map (tokenize stop)) ≠ []) :
    build_user_profile stop idfW [] = .ok (none, none)
    ∧ build_user_profile stop idfW bms =
        .ok (some (fitVectorizer stop idfW (bms.map bmText)),
             some (userProfileVec stop idfW bms))
    ∧ (userProfileVec stop idfW bms).length
        = (fitVectorizer stop idfW (bms.map bmText)).vocab.length
    ∧ 0 < (userProfileVec stop idfW bms).length
    ∧ ∀ i (h : i < (userProfileVec stop idfW bms).length),
        0 < (userProfileVec stop idfW bms).get ⟨i, h⟩ := by
  have hb : ¬ (bms.isEmpty = true) := by
    rw [List.isEmpty_iff]
    exact hne
  have hvempty : ¬ ((buildVocab ((bms.map bmText).map (tokenize stop))).isEmpty = true) := by
    rw [List.isEmpty_iff]
    exact hvocab
  have hlen : (userProfileVec stop idfW bms).length
      = (fitVectorizer stop idfW (bms.map bmText)).vocab.length := by
    unfold userProfileVec
    exact meanColumns_length _ _
  refine ⟨rfl, ?_, hlen, ?_, ?_⟩
  · unfold build_user_profile
    rw [if_neg hb]
    unfold fitTransform
    rw [if_neg hvempty]
    rfl
  · rw [hlen]
    have : (fitVectorizer stop idfW (bms.map bmText)).vocab ≠ [] := hvocab
    exact List.length_pos.mpr this
  · intro i h
    unfold userProfileVec at h ⊢
    rw [meanColumns_get _ _ _ h]
    set corpus := bms.map bmText with hcorpus
    have hiv : i < (fitVectorizer stop idfW corpus).vocab.length := by
      have := h
      rw [meanColumns_length] at this
      exact this
    -- the witness document containing the i-th vocabulary term
    have hterm : (fitVectorizer stop idfW corpus).vocab.get ⟨i, hiv⟩ ∈
        buildVocab (corpus.map (tokenize stop)) := by
      exact List.get_mem (fitVectorizer stop idfW corpus).vocab i hiv
    rcases mem_buildVocab _ _ hterm with ⟨dtoks, hdocs, htok⟩
    rcases List.mem_map.mp hdocs with ⟨s, hs, rfl⟩
    -- the corresponding matrix entry is positive, all entries are non-negative
    have happly : ((corpus.map (transformDoc (fitVectorizer stop idfW corpus))).map
        (fun r => r.getD i 0)) = corpus.map
          (fun s => (transformDoc (fitVectorizer stop idfW corpus) s).getD i 0) := by
      rw [List.map_map]
      rfl
    have hnonneg : ∀ x ∈ corpus.map
        (fun s => (transformDoc (fitVectorizer stop idfW corpus) s).getD i 0), 0 ≤ x := by
      intro x hx
      rcases List.mem_map.mp hx with ⟨u, _, rfl⟩
      exact transformDoc_getD_nonneg stop idfW corpus hpos u i
    have hposterm : 0 < (transformDoc (fitVectorizer stop idfW corpus) s).getD i 0 :=
      transformDoc_getD_pos stop idfW corpus hpos s i hiv htok
    have hmemterm : (transformDoc (fitVectorizer stop idfW corpus) s).getD i 0 ∈
        corpus.map (fun s => (transformDoc (fitVectorizer stop idfW corpus) s).getD i 0) :=
      List.mem_map.mpr ⟨s, hs, rfl⟩
    have hsum : 0 < (corpus.map
        (fun s => (transformDoc (fitVectorizer stop idfW corpus) s).getD i 0)).sum :=
      lt_of_lt_of_le hposterm (List.single_le_sum hnonneg _ hmemterm)
    have hn : (0 : ℚ) < ((corpus.map (transformDoc (fitVectorizer stop idfW corpus))).length : ℚ) := by
      rw [List.length_map]
      have : 0 < corpus.length := by
        rw [hcorpus, List.length_map]
        exact List.length_pos.mpr hne
      exact_mod_cast this
    rw [happly]
    exact div_pos hsum hn

/-- **C6 (counterexample to the claim as stated).** The non-empty
bookmark set `[{title: "", url: "", ...}]` yields no vocabulary term, so
`TfidfVectorizer.fit_transform` raises (`ValueError: empty vocabulary`)
instead of returning a vectorizer and profile. -/
theorem C6_counterexample :
    build_user_profile (fun _ => false) (fun _ _ => 1) [⟨"", "", "", ""⟩]
      = .error .emptyVocabulary := rfl

/-- **C6 (witness).** The amended claim at the concrete bookmark
`{title: "aa bb", url: "cc"}` with unit idf weights: vocabulary
`["aa","bb","cc"]`, profile of dimension 3. -/
theorem C6_witness :
    build_user_profile (fun _ => false) (fun _ _ => 1) [⟨"aa bb", "cc", "s", ""⟩] =
      .ok (some (fitVectorizer (fun _ => false) (fun _ _ => 1)
             ([⟨"aa bb", "cc", "s", ""⟩].map bmText)),
           some (userProfileVec (fun _ => false) (fun _ _ => 1) [⟨"aa bb", "cc", "s", ""⟩]))
    ∧ (userProfileVec (fun _ => false) (fun _ _ => 1) [⟨"aa bb", "cc", "s", ""⟩]).length
        = (fitVectorizer (fun _ => false) (fun _ _ => 1)
            ([⟨"aa bb", "cc", "s", ""⟩].map bmText)).vocab.length
    ∧ 0 < (userProfileVec (fun _ => false) (fun _ _ => 1) [⟨"aa bb", "cc", "s", ""⟩]).length
    ∧ (fitVectorizer (fun _ => false) (fun _ _ => 1)
        ([⟨"aa bb", "cc", "s", ""⟩].map bmText)).vocab = ["aa", "bb", "cc"] := by
  have h := C6_build_profile (fun _ => false) (fun _ _ => 1) [⟨"aa bb", "cc", "s", ""⟩]
    (fun _ _ => by norm_num) (by decide) (by decide)
  exact ⟨h.2.1, h.2.2.1, h.2.2.2.1, by decide⟩

end VideoRec
